import Mathlib

/-!
Verification of the scramble-sequence generation engine of the
speed-cube-scrambler Discord bot (src/SpeedCubingThreads/shared/scrambleGenerators.ts).

Randomness model: the source draws from Math.random(). We model each call of
Math.random() as consuming one value of an abstract stream of natural numbers
g : Nat -> Nat at a cursor k that advances by one per draw.
  - getRandomInt(min, max) = Math.floor(Math.random()*(max-min+1))+min is
    modelled as min + g k % (max - min + 1), which ranges over the same
    inclusive interval and reaches every value in it.
  - getRandomElement(array) = array[Math.floor(Math.random()*array.length)] is
    modelled as indexing with g k % array.length.  On an empty array the
    JavaScript expression evaluates to undefined; we model this with Option:
    the result is none exactly when the array is empty.
  - a comparison Math.random() < p (p a literal like 0.6) is modelled as
    g k % 100 < 100*p; both outcomes are reachable, which is all the claims
    (each quantified over every stream) depend on.
Every generator returns its scramble as the list of pushed tokens; the source
finally joins that list with single spaces via scramble.join, which we model
with String.intercalate.  A move token pushed as face+modifier is kept as the
pair (face, modifier); rendering concatenates the two parts.
-/

namespace Scramble

/-- The abstract stream of random draws. -/
abbrev RStream := Nat → Nat

/-- Model of getRandomInt(min, max) (scrambleGenerators.ts lines 6-8):
returns a uniform integer in [min, max] inclusive and the advanced cursor. -/
def getRandomInt (g : RStream) (k minv maxv : Nat) : Nat × Nat :=
  (minv + g k % (maxv - minv + 1), k + 1)

/-- Model of getRandomElement (lines 13-15): array[floor(random()*len)].
On an empty list the JavaScript result is undefined, modelled as none. -/
def getRandomElement (l : List α) (g : RStream) (k : Nat) : Option (α × Nat) :=
  match l.get? (g k % l.length) with
  | some a => some (a, k + 1)
  | none => none

/-- Model of a JavaScript comparison Math.random() < p where p is a literal
with two decimals; pct is 100*p. -/
def chance (g : RStream) (k pct : Nat) : Bool :=
  g k % 100 < pct

/-- The apostrophe character used by the inverse modifier. -/
def apo : String := (Char.ofNat 39).toString

/-- Opposite moves mapping for 3x3 (lines 32-36).  A JavaScript Record lookup
on a missing key yields undefined, modelled as none. -/
def opposites (s : String) : Option String :=
  if s = "R" then some "L" else if s = "L" then some "R"
  else if s = "U" then some "D" else if s = "D" then some "U"
  else if s = "F" then some "B" else if s = "B" then some "F"
  else none

/-- Moves in the same axis for 3x3 (lines 41-45), again a Record lookup. -/
def sameAxis (s : String) : Option (List String) :=
  if s = "R" then some ["R", "L"] else if s = "L" then some ["R", "L"]
  else if s = "U" then some ["U", "D"] else if s = "D" then some ["U", "D"]
  else if s = "F" then some ["F", "B"] else if s = "B" then some ["F", "B"]
  else none

/-- Boolean test sameAxis[a].includes(b) with undefined treated as false;
true exactly when a and b are faces on the same axis. -/
def sameAxisB (a b : String) : Bool :=
  match sameAxis a with
  | some ax => ax.contains b
  | none => false

/-! ### Clock generator (lines 388-442) -/

/-- Pin lookup pins[pos] for the Record keyed UR, DR, DL, UL (lines 398-403). -/
def pinAt (ur dr dl ul pos : String) : String :=
  if pos = "UR" then ur else if pos = "DR" then dr
  else if pos = "DL" then dl else ul

/-- The five clock dial positions used by both hour loops (line 418). -/
def clockPositions : List String := ["UL", "UR", "DR", "DL", "ALL"]

/-- One for-of hour loop (lines 422-428 and 434-439): for each position draw
hour = getRandomInt(0, 6) and push pos + (hour >= 0 ? plus-sign : empty) + hour. -/
def clockHourTokens (g : RStream) : List String → Nat → List String × Nat
  | [], k => ([], k)
  | pos :: rest, k =>
    let hour := 0 + g k % 7
    let tok := pos ++ (if 0 ≤ hour then "+" else "") ++ toString hour
    let (ts, k2) := clockHourTokens g rest (k + 1)
    (tok :: ts, k2)

/-- generateClockScramble (lines 388-442), returning the pushed token list.
Draw four pins, each uniform in u/d; if fewer than two pins are down, flip one
randomly chosen up pin to down; emit the pin token, five hour tokens, the
literal y2, and five more hour tokens. -/
def generateClockTokens (g : RStream) : Option (List String) :=
  match getRandomElement ["u", "d"] g 0 with
  | none => none
  | some (pUR, k1) =>
  match getRandomElement ["u", "d"] g k1 with
  | none => none
  | some (pDR, k2) =>
  match getRandomElement ["u", "d"] g k2 with
  | none => none
  | some (pDL, k3) =>
  match getRandomElement ["u", "d"] g k3 with
  | none => none
  | some (pUL, k4) =>
    let downPinCount := ([pUR, pDR, pDL, pUL].filter (fun p => p == "d")).length
    let next : Option ((String × String × String × String) × Nat) :=
      if downPinCount < 2 then
        let ups := ["UR", "DR", "DL", "UL"].filter
          (fun pos => pinAt pUR pDR pDL pUL pos == "u")
        match getRandomElement ups g k4 with
        | none => none
        | some (pos, k5) =>
          some ((if pos = "UR" then "d" else pUR,
                 if pos = "DR" then "d" else pDR,
                 if pos = "DL" then "d" else pDL,
                 if pos = "UL" then "d" else pUL), k5)
      else some ((pUR, pDR, pDL, pUL), k4)
    match next with
    | none => none
    | some ((ur, dr, dl, ul), k5) =>
      let pinTok := "(" ++ ur ++ "," ++ dr ++ "," ++ dl ++ "," ++ ul ++ ")"
      let (h1, k6) := clockHourTokens g clockPositions k5
      let (h2, _) := clockHourTokens g clockPositions k6
      some (pinTok :: h1 ++ "y2" :: h2)

/-- The space-joined scramble string of the clock generator (line 441). -/
def generateClockScramble (g : RStream) : Option String :=
  (generateClockTokens g).map (fun l => String.intercalate " " l)

/-- Number of occurrences of the letter d in a token, used to state the
clock pin floor claim. -/
def countD (s : String) : Nat := s.toList.count 'd'

/-! ### 3x3 generator (lines 54-130) -/

/-- A pushed move token before string concatenation: face and modifier. -/
abbrev Mv := String × String

/-- Rendering of a pushed move list to the token strings of the join. -/
def renderMvs (l : List Mv) : List String := l.map (fun mv => mv.1 ++ mv.2)

/-- The six face moves of the 3x3 generator (line 55). -/
def moves3 : List String := ["R", "L", "U", "D", "F", "B"]

/-- Candidate list after the same-axis filter (lines 65-70).  The source
reads sameAxis[lastMove].includes(move) without a guard; lastMove is always a
face previously drawn from moves3 when non-empty, so the lookup never misses
and the getD default is inert. -/
def avail3A (last : String) : List String :=
  if last ≠ "" then
    moves3.filter (fun m => !((sameAxis last).getD []).contains m)
  else moves3

/-- Candidate list after additionally filtering the second-to-last move
(lines 74-80); the source tests secondLastMove === availableMoves.find(...). -/
def avail3B (last slast : String) : List String :=
  let a := avail3A last
  if slast ≠ "" ∧ last ≠ "" then
    if (a.find? (fun m => m == slast)) == some slast then
      a.filter (fun m => m ≠ slast)
    else a
  else a

/-- Final candidate list, with the empty-set relaxation (lines 83-85). -/
def avail3 (last slast : String) : List String :=
  let a := avail3B last slast
  if a.length = 0 then moves3.filter (fun m => m ≠ last) else a

/-- Adjacent-face pairs used by the every-5th-move bias (line 89). -/
def adjacentPairs : List (List String) :=
  [["R", "F"], ["R", "U"], ["U", "F"], ["L", "B"], ["L", "D"], ["D", "B"]]

/-- Modifier of the default 3x3 path (lines 114-122): one draw split into
thirds, yielding nothing, the inverse mark, or 2. -/
def mod3Way (g : RStream) (k : Nat) : String × Nat :=
  let r := g k % 100
  (if r < 33 then "" else if r < 66 then apo else "2", k + 1)

/-- Modifier of the 3x3 bias path (line 99): random() < 0.4 gives 2, else a
second draw picks between the inverse mark and nothing. -/
def biasMod (g : RStream) (k : Nat) : String × Nat :=
  if chance g k 40 then ("2", k + 1)
  else if chance g (k + 1) 50 then (apo, k + 2) else ("", k + 2)

/-- The every-5th-move adjacency-bias block (lines 89-107).  Result some
(some mv, k2) means the block pushed mv and continued the loop; some (none, k2)
means control fell through to the default selection with cursor k2; none can
only arise from getRandomElement on an empty list. -/
def bias3 (g : RStream) (i k : Nat) (last : String) (avail : List String) :
    Option (Option Mv × Nat) :=
  if 0 < i ∧ i % 5 = 0 ∧ last ≠ "" then
    let preferredPairs := adjacentPairs.filter (fun pair => pair.contains last)
    if preferredPairs.length > 0 then
      match getRandomElement preferredPairs g k with
      | none => none
      | some (randomPair, k1) =>
        match randomPair.find? (fun move => move ≠ last) with
        | none => some (none, k1)
        | some preferredMove =>
          if avail.contains preferredMove then
            if chance g k1 60 then
              let (m, k2) := biasMod g (k1 + 1)
              some (some (preferredMove, m), k2)
            else some (none, k1 + 1)
          else some (none, k1)
    else some (none, k)
  else some (none, k)

/-- One iteration of the 3x3 loop body: returns the pushed move and the new
cursor.  Control order follows the source: filters, relaxation, bias block,
then default getRandomElement plus modifier draw. -/
def step3 (g : RStream) (i k : Nat) (last slast : String) :
    Option (Mv × Nat) :=
  match bias3 g i k last (avail3 last slast) with
  | none => none
  | some (some mv, k1) => some (mv, k1)
  | some (none, k1) =>
    match getRandomElement (avail3 last slast) g k1 with
    | none => none
    | some (face, k2) =>
      let (m, k3) := mod3Way g k2
      some ((face, m), k3)

/-- The 20-iteration loop of generate3x3Scramble: n is the number of
iterations left, i the absolute loop counter (for i % 5). -/
def gen3Go (g : RStream) : Nat → Nat → Nat → String → String → Option (List Mv)
  | 0, _, _, _, _ => some []
  | n + 1, i, k, last, slast =>
    match step3 g i k last slast with
    | none => none
    | some (mv, k1) =>
      match gen3Go g n (i + 1) k1 mv.1 last with
      | none => none
      | some rest => some (mv :: rest)

/-- generate3x3Scramble (lines 54-130) as the list of pushed moves. -/
def generate3x3Moves (g : RStream) : Option (List Mv) :=
  gen3Go g 20 0 0 "" ""

/-- generate3x3Scramble joined output (line 129). -/
def generate3x3Scramble (g : RStream) : Option String :=
  (generate3x3Moves g).map (fun l => String.intercalate " " (renderMvs l))

/-- No two adjacent faces of the list lie on the same axis. -/
def diffAxisChainB : List String → Bool
  | a :: b :: t => (!sameAxisB a b) && diffAxisChainB (b :: t)
  | _ => true

/-- Every face differs from the face two positions earlier. -/
def noTwoBackB : List String → Bool
  | a :: b :: c :: t => (c != a) && noTwoBackB (b :: c :: t)
  | _ => true

/-- No face equals the immediately preceding face. -/
def noRepeatB : List String → Bool
  | a :: b :: t => (a != b) && noRepeatB (b :: t)
  | _ => true

/-! ### 2x2 generator (lines 139-221) -/

/-- The three face moves of the 2x2 generator (line 141). -/
def moves2 : List String := ["R", "U", "F"]

/-- The hard 2x2 pattern pairs (lines 153-155). -/
def hardPatterns2 : List (List String) := [["R", "U"], ["R", "F"], ["U", "F"]]

/-- Candidate list after the guarded same-axis filter (lines 161-167); the
2x2 filter guards the Record lookup: !sameAxis[last] || !includes(move). -/
def avail2A (last : String) : List String :=
  if last ≠ "" then
    moves2.filter (fun m =>
      match sameAxis last with
      | none => true
      | some ax => !ax.contains m)
  else moves2

/-- Candidate list after the second-to-last filter (lines 170-174). -/
def avail2B (last slast : String) : List String :=
  let a := avail2A last
  if slast ≠ "" ∧ last ≠ "" then
    if (a.find? (fun m => m == slast)) == some slast then
      a.filter (fun m => m ≠ slast)
    else a
  else a

/-- Final 2x2 candidate list with the empty-set relaxation (lines 177-179). -/
def avail2 (last slast : String) : List String :=
  let a := avail2B last slast
  if a.length = 0 then moves2.filter (fun m => m ≠ last) else a

/-- Modifier of the default 2x2 path (lines 205-213): 30/35/35 split. -/
def mod2Way (g : RStream) (k : Nat) : String × Nat :=
  let r := g k % 100
  (if r < 30 then "" else if r < 65 then apo else "2", k + 1)

/-- The every-3rd-move hard-pattern bias of the 2x2 loop (lines 182-199);
same result convention as the 3x3 bias block. -/
def bias2 (g : RStream) (i k : Nat) (last : String) (avail : List String) :
    Option (Option Mv × Nat) :=
  if 0 < i ∧ i % 3 = 0 ∧ last ≠ "" then
    let relevantPatterns := hardPatterns2.filter (fun pattern => pattern.contains last)
    if relevantPatterns.length > 0 then
      match getRandomElement relevantPatterns g k with
      | none => none
      | some (randomPattern, k1) =>
        match randomPattern.find? (fun move => move ≠ last) with
        | none => some (none, k1)
        | some nextMove =>
          if avail.contains nextMove then
            if chance g k1 60 then
              let (m, k2) := biasMod g (k1 + 1)
              some (some (nextMove, m), k2)
            else some (none, k1 + 1)
          else some (none, k1)
    else some (none, k)
  else some (none, k)

/-- One iteration of the 2x2 loop body (lines 157-218). -/
def step2 (g : RStream) (i k : Nat) (last slast : String) :
    Option (Mv × Nat) :=
  match bias2 g i k last (avail2 last slast) with
  | none => none
  | some (some mv, k1) => some (mv, k1)
  | some (none, k1) =>
    match getRandomElement (avail2 last slast) g k1 with
    | none => none
    | some (face, k2) =>
      let (m, k3) := mod2Way g k2
      some ((face, m), k3)

/-- The 2x2 loop over the drawn move count. -/
def gen2Go (g : RStream) : Nat → Nat → Nat → String → String → Option (List Mv)
  | 0, _, _, _, _ => some []
  | n + 1, i, k, last, slast =>
    match step2 g i k last slast with
    | none => none
    | some (mv, k1) =>
      match gen2Go g n (i + 1) k1 mv.1 last with
      | none => none
      | some rest => some (mv :: rest)

/-- generate2x2Scramble (lines 139-221) as the list of pushed moves;
the move count is drawn uniformly from [9, 11] (line 149). -/
def generate2x2Moves (g : RStream) : Option (List Mv) :=
  let (moveCount, k1) := getRandomInt g 0 9 11
  gen2Go g moveCount 0 k1 "" ""

/-- generate2x2Scramble joined output (line 220). -/
def generate2x2Scramble (g : RStream) : Option String :=
  (generate2x2Moves g).map (fun l => String.intercalate " " (renderMvs l))

/-- The unique element of R, U, F different from both arguments; with two
distinct faces given, the forced third face of the 2x2 alphabet. -/
def rufThird (a b : String) : String :=
  (moves2.filter (fun f => f != a && f != b)).headD ""

/-- From the third element on, each face is the one forced by the two faces
before it (2x2 implicit determinism claim). -/
def thirdDeterminedB : List String → Bool
  | a :: b :: c :: t => (c == rufThird a b) && thirdDeterminedB (b :: c :: t)
  | _ => true

/-! ### Pyraminx generator (lines 227-319) -/

/-- A pyraminx base move: face, modifier, and an instrumentation flag telling
whether the hard-pattern injection (lines 255-274) produced it.  The flag is
dropped by rendering and only serves the statement of path-restricted
properties. -/
structure PMove where
  face : String
  mod : String
  fromPattern : Bool
  deriving DecidableEq, Repr

/-- The four pyraminx faces (line 228). -/
def pyrMoves : List String := ["R", "L", "U", "B"]

/-- The pyraminx tip moves (line 229). -/
def tipMoves : List String := ["r", "l", "u", "b"]

/-- The two pyraminx modifiers (line 231). -/
def pyrModifiers : List String := ["", apo]

/-- Anti-rotation map (lines 240-243), a Record lookup. -/
def antiRot (s : String) : Option String :=
  if s = "R" then some "L" else if s = "L" then some "R"
  else if s = "U" then some "B" else if s = "B" then some "U"
  else none

/-- The four hard pyraminx patterns (lines 246-251); every entry of the
source list is a two-element array, kept here as a pair. -/
def hardPatternsPyr : List (String × String) :=
  [("R", "L"), ("U", "B"), ("R", "U"), ("L", "B")]

/-- Pyraminx standard-path candidates (lines 277-290): drop the last move,
drop the second-to-last move when it anti-rotates the last one, and relax if
empty. -/
def availPyr (last slast : String) : List String :=
  let a := pyrMoves.filter (fun move => move ≠ last)
  let a :=
    if slast ≠ "" ∧ last ≠ "" ∧ (antiRot last) == some slast then
      a.filter (fun move => move ≠ slast)
    else a
  if a.length = 0 then pyrMoves.filter (fun move => move ≠ last) else a

/-- The pyraminx base loop (lines 253-299).  The for loop advances i by 2
when a hard pattern is injected (i += pattern.length - 1 plus the loop
increment); fuel bounds the number of iterations and is unreachable as 0 from
the top-level call, which passes moveCount + 1. -/
def pyrGo (g : RStream) (moveCount : Nat) :
    Nat → Nat → Nat → String → String → Option (List PMove × Nat)
  | 0, _, _, _, _ => none
  | fuel + 1, i, k, last, slast =>
    if i < moveCount then
      if i % 3 = 0 ∧ i + 1 < moveCount then
        match getRandomElement hardPatternsPyr g k with
        | none => none
        | some (pattern, k1) =>
          if pattern.1 ≠ last then
            match getRandomElement pyrModifiers g k1 with
            | none => none
            | some (m1, k2) =>
              match getRandomElement pyrModifiers g k2 with
              | none => none
              | some (m2, k3) =>
                match pyrGo g moveCount fuel (i + 2) k3 pattern.2 pattern.1 with
                | none => none
                | some (rest, kf) =>
                  some (⟨pattern.1, m1, true⟩ :: ⟨pattern.2, m2, true⟩ :: rest, kf)
          else
            -- the rejected pattern draw consumed a value; fall through to the
            -- standard single-move selection (lines 277-298) at cursor k1
            match getRandomElement (availPyr last slast) g k1 with
            | none => none
            | some (move, k2) =>
              match pyrGo g moveCount fuel (i + 1) (k2 + 1) move last with
              | none => none
              | some (rest, kf) =>
                some (⟨move, if chance g k2 60 then apo else "", false⟩ :: rest, kf)
      else
        -- standard single-move selection (lines 277-298)
        match getRandomElement (availPyr last slast) g k with
        | none => none
        | some (move, k2) =>
          match pyrGo g moveCount fuel (i + 1) (k2 + 1) move last with
          | none => none
          | some (rest, kf) =>
            some (⟨move, if chance g k2 60 then apo else "", false⟩ :: rest, kf)
    else some ([], k)

/-- The pyraminx tip loop (lines 303-316): up to tipCount tips, each tip
letter used at most once, breaking when no tips remain. -/
def pyrTips (g : RStream) : Nat → Nat → List String → Option (List Mv)
  | 0, _, _ => some []
  | n + 1, k, used =>
    let availableTips := tipMoves.filter (fun tip => !used.contains tip)
    if availableTips.length = 0 then some []
    else
      match getRandomElement availableTips g k with
      | none => none
      | some (tip, k1) =>
        match getRandomElement pyrModifiers g k1 with
        | none => none
        | some (m, k2) =>
          match pyrTips g n k2 (tip :: used) with
          | none => none
          | some rest => some ((tip, m) :: rest)

/-- generatePyraminxScramble (lines 227-319) split into its base portion and
its tip portion; the source pushes the tips onto the same array. -/
def generatePyraminxParts (g : RStream) : Option (List PMove × List Mv) :=
  match pyrGo g (getRandomInt g 0 8 10).1 ((getRandomInt g 0 8 10).1 + 1) 0
      (getRandomInt g 0 8 10).2 "" "" with
  | none => none
  | some (base, k2) =>
    match pyrTips g (getRandomInt g k2 0 2).1 (getRandomInt g k2 0 2).2 [] with
    | none => none
    | some tips => some (base, tips)

/-- generatePyraminxScramble joined output (line 318). -/
def generatePyraminxScramble (g : RStream) : Option String :=
  (generatePyraminxParts g).map (fun p =>
    String.intercalate " "
      ((p.1.map (fun mv => mv.face ++ mv.mod)) ++ renderMvs p.2))

/-- The base-portion face letters of a pyraminx scramble. -/
def pyrBaseFaces (g : RStream) : List String :=
  ((generatePyraminxParts g).map (fun p => p.1.map PMove.face)).getD []

/-- True when the list contains a triple a, b, c of consecutive faces with a
the axis-opposite of b and c equal to a: the cancellation shape the pyraminx
claim forbids. -/
def hasCancelViolation : List String → Bool
  | a :: b :: c :: t =>
    ((antiRot b == some a) && (c == a)) || hasCancelViolation (b :: c :: t)
  | _ => false

/-- The anti-cancellation rule restricted to moves produced by the standard
single-move path: whenever a, b, c are consecutive and c comes from the
single-move path, a = antiRot(b) forces c.face different from a.face. -/
def antiCancelStdB : List PMove → Bool
  | a :: b :: c :: t =>
    (c.fromPattern || !(antiRot b.face == some a.face) || (c.face != a.face))
      && antiCancelStdB (b :: c :: t)
  | _ => true

/-! ### Skewb generator (lines 325-382) -/

/-- The four skewb corners (line 327). -/
def corners : List String := ["R", "U", "L", "B"]

/-- Skewb adjacency map (lines 335-340), a Record lookup. -/
def adjacentCorners (s : String) : Option (List String) :=
  if s = "R" then some ["U", "L", "B"] else if s = "U" then some ["R", "L", "B"]
  else if s = "L" then some ["R", "U", "B"] else if s = "B" then some ["R", "U", "L"]
  else none

/-- The 70 percent adjacency preference of the skewb loop (lines 352-369):
result some (some mv, k2) means the branch pushed mv and continued; some
(none, k2) means control fell through to the default selection. -/
def stepSkAdj (g : RStream) (k : Nat) (last slast : String) :
    Option (Option Mv × Nat) :=
  if last ≠ "" ∧ (adjacentCorners last).isSome then
    if chance g k 70 then
      if (((adjacentCorners last).getD []).filter
          (fun corner => corner ≠ slast)).length > 0 then
        match getRandomElement (((adjacentCorners last).getD []).filter
            (fun corner => corner ≠ slast)) g (k + 1) with
        | none => none
        | some (corner, k1) =>
          some (some (corner, if chance g k1 55 then apo else ""), k1 + 1)
      else some (none, k + 1)
    else some (none, k + 1)
  else some (none, k)

/-- One iteration of the skewb loop body (lines 343-379): filter out the last
corner, try the 70 percent adjacency preference, else draw from the filtered
list; modifier is the inverse mark with 55 percent probability. -/
def stepSk (g : RStream) (k : Nat) (last slast : String) :
    Option (Mv × Nat) :=
  match stepSkAdj g k last slast with
  | none => none
  | some (some mv, k1) => some (mv, k1)
  | some (none, k1) =>
    match getRandomElement (corners.filter (fun corner => corner ≠ last)) g k1 with
    | none => none
    | some (corner, k2) =>
      some ((corner, if chance g k2 55 then apo else ""), k2 + 1)

/-- The 9-iteration skewb loop. -/
def genSkGo (g : RStream) : Nat → Nat → String → String → Option (List Mv)
  | 0, _, _, _ => some []
  | n + 1, k, last, slast =>
    match stepSk g k last slast with
    | none => none
    | some (mv, k1) =>
      match genSkGo g n k1 mv.1 last with
      | none => none
      | some rest => some (mv :: rest)

/-- generateSkewbScramble (lines 325-382) as the list of pushed moves. -/
def generateSkewbMoves (g : RStream) : Option (List Mv) :=
  genSkGo g 9 0 "" ""

/-- generateSkewbScramble joined output (line 381). -/
def generateSkewbScramble (g : RStream) : Option String :=
  (generateSkewbMoves g).map (fun l => String.intercalate " " (renderMvs l))

/-! ### Custom 3x3 generator (lines 467-517) -/

/-- The face alphabet of generateCustom3x3Scramble: the base six faces, with
the slice moves M, E, S pushed for hard difficulty (lines 469-482). -/
def custom3Faces (difficulty : String) : List String :=
  if difficulty = "hard" then moves3 ++ ["M", "E", "S"] else moves3

/-- The modifier alphabet of generateCustom3x3Scramble per difficulty
(lines 473-489). -/
def custom3Modifiers (difficulty : String) : List String :=
  if difficulty = "easy" then ["", apo]
  else if difficulty = "hard" then ["", apo, "2", "w", "w" ++ apo, "w2"]
  else ["", apo, "2"]

/-- The do-while rejection condition of lines 501-505: retry while the face
equals the last face, is the axis-opposite of the last face, or shares an
axis with the tracked last axis (all Record lookups guarded by truthiness). -/
def reject3 (face last lastAxis : String) : Bool :=
  (face == last) || (opposites last == some face) ||
    (if lastAxis == "" then false
     else match sameAxis face with
       | some ax => ax.contains lastAxis
       | none => false)

/-- The do-while loop (lines 499-505): draw, test, retry.  fuel bounds the
number of draws; none arises on fuel exhaustion (the source loops forever on
a stream that never offers an acceptable face) or on an empty face list. -/
def pickFace3 (g : RStream) (faces : List String) (last lastAxis : String) :
    Nat → Nat → Option (String × Nat)
  | 0, _ => none
  | fuel + 1, k =>
    match getRandomElement faces g k with
    | none => none
    | some (face, k1) =>
      if reject3 face last lastAxis then pickFace3 g faces last lastAxis fuel k1
      else some (face, k1)

/-- The base faces list literal of line 508 used to decide whether the chosen
face updates the tracked axis. -/
def axisFaces : List String := ["R", "L", "U", "D", "F", "B"]

/-- The custom 3x3 loop (lines 495-514). -/
def gen3CGo (g : RStream) (fuel : Nat) (difficulty : String) :
    Nat → Nat → String → String → Option (List Mv)
  | 0, _, _, _ => some []
  | n + 1, k, last, lastAxis =>
    match pickFace3 g (custom3Faces difficulty) last lastAxis fuel k with
    | none => none
    | some (face, k1) =>
      match getRandomElement (custom3Modifiers difficulty) g k1 with
      | none => none
      | some (m, k2) =>
        match gen3CGo g fuel difficulty n k2 face
            (if axisFaces.contains face then face else lastAxis) with
        | none => none
        | some rest => some ((face, m) :: rest)

/-- generateCustom3x3Scramble (lines 467-517) as the list of pushed moves.
The move count is an arbitrary integer (a JavaScript number); the for loop
runs moves.toNat times since a non-positive bound runs zero iterations. -/
def generateCustom3x3Moves (g : RStream) (fuel : Nat) (moves : Int)
    (difficulty : String) : Option (List Mv) :=
  gen3CGo g fuel difficulty moves.toNat 0 "" ""

/-! ### Custom 2x2 generator (lines 524-559) -/

/-- The difficulty-adjusted move count of generateCustom2x2Scramble
(lines 530-540): easy caps at 8, hard raises to at least 11, medium clamps
into [9, 11]. -/
def custom2Count (moves : Int) (difficulty : String) : Int :=
  if difficulty = "easy" then min moves 8
  else if difficulty = "hard" then max moves 11
  else min (max moves 9) 11

/-- The modifier alphabet of generateCustom2x2Scramble (lines 530-540). -/
def custom2Modifiers (difficulty : String) : List String :=
  if difficulty = "easy" then ["", apo] else ["", apo, "2"]

/-- The do-while loop of lines 549-551: retry while the face equals the
immediately preceding face. -/
def pickFace2 (g : RStream) (last : String) : Nat → Nat → Option (String × Nat)
  | 0, _ => none
  | fuel + 1, k =>
    match getRandomElement moves2 g k with
    | none => none
    | some (face, k1) =>
      if face == last then pickFace2 g last fuel k1
      else some (face, k1)

/-- The custom 2x2 loop (lines 545-556). -/
def gen2CGo (g : RStream) (fuel : Nat) (difficulty : String) :
    Nat → Nat → String → Option (List Mv)
  | 0, _, _ => some []
  | n + 1, k, last =>
    match pickFace2 g last fuel k with
    | none => none
    | some (face, k1) =>
      match getRandomElement (custom2Modifiers difficulty) g k1 with
      | none => none
      | some (m, k2) =>
        match gen2CGo g fuel difficulty n k2 face with
        | none => none
        | some rest => some ((face, m) :: rest)

/-- generateCustom2x2Scramble (lines 524-559) as the list of pushed moves. -/
def generateCustom2x2Moves (g : RStream) (fuel : Nat) (moves : Int)
    (difficulty : String) : Option (List Mv) :=
  gen2CGo g fuel difficulty (custom2Count moves difficulty).toNat 0 ""

/-! ### Dispatch (lines 567-611) -/

/-- The seven canonical puzzle-type labels of shared/schema.ts cubeTypes. -/
def canonicalTypes : List String :=
  ["2x2", "3x3", "3x3 BLD", "3x3 OH", "Pyraminx", "Skewb", "Clock"]

/-- generate3x3BLDScramble (lines 448-452): pure delegation to the 3x3. -/
def generate3x3BLDMoves (g : RStream) : Option (List Mv) := generate3x3Moves g

/-- generate3x3OHScramble (lines 458-460): pure delegation to the 3x3. -/
def generate3x3OHMoves (g : RStream) : Option (List Mv) := generate3x3Moves g

/-- The token list of the pyraminx scramble: base then tips (line 318). -/
def pyraminxTokens (g : RStream) : Option (List String) :=
  (generatePyraminxParts g).map (fun p =>
    (p.1.map (fun mv => mv.face ++ mv.mod)) ++ renderMvs p.2)

/-- generateScramble (lines 592-611): the switch over the cube type in source
order, with the default branch falling back to the 3x3 generator.  Returns
the token list whose join is the returned string. -/
def generateScrambleTokens (cubeType : String) (g : RStream) :
    Option (List String) :=
  if cubeType = "3x3" then (generate3x3Moves g).map renderMvs
  else if cubeType = "2x2" then (generate2x2Moves g).map renderMvs
  else if cubeType = "Pyraminx" then pyraminxTokens g
  else if cubeType = "Skewb" then (generateSkewbMoves g).map renderMvs
  else if cubeType = "Clock" then generateClockTokens g
  else if cubeType = "3x3 BLD" then (generate3x3BLDMoves g).map renderMvs
  else if cubeType = "3x3 OH" then (generate3x3OHMoves g).map renderMvs
  else (generate3x3Moves g).map renderMvs

/-- The moves-or-default coalescing of generateCustomScramble: a JavaScript
falsy test, so a move count of 0 (or an omitted argument, which behaves the
same) selects the default. -/
def movesOr (moves : Int) (dflt : Int) : Int :=
  if moves = 0 then dflt else moves

/-- generateCustomScramble (lines 567-587): the switch over the cube type in
source order; 2x2 and the 3x3 family route to the custom generators with
coalesced move counts, the other puzzles fall back to their standard
generators ignoring the parameters, and the default branch routes to the
custom 3x3. -/
def generateCustomTokens (cubeType : String) (moves : Int) (difficulty : String)
    (fuel : Nat) (g : RStream) : Option (List String) :=
  if cubeType = "2x2" then
    (generateCustom2x2Moves g fuel (movesOr moves 10) difficulty).map renderMvs
  else if cubeType = "3x3" then
    (generateCustom3x3Moves g fuel (movesOr moves 20) difficulty).map renderMvs
  else if cubeType = "3x3 BLD" then
    (generateCustom3x3Moves g fuel (movesOr moves 20) difficulty).map renderMvs
  else if cubeType = "3x3 OH" then
    (generateCustom3x3Moves g fuel (movesOr moves 20) difficulty).map renderMvs
  else if cubeType = "Pyraminx" then pyraminxTokens g
  else if cubeType = "Skewb" then (generateSkewbMoves g).map renderMvs
  else if cubeType = "Clock" then generateClockTokens g
  else (generateCustom3x3Moves g fuel (movesOr moves 20) difficulty).map renderMvs

/-! ### State validity and chains -/

/-- The values the 3x3 last/second-to-last trackers can hold. -/
def valid3 : List String := "" :: moves3

/-- The values the 2x2 trackers can hold. -/
def valid2 : List String := "" :: moves2

/-- The values the pyraminx trackers can hold. -/
def validPyr : List String := "" :: pyrMoves

/-- The values the skewb trackers can hold. -/
def validSk : List String := "" :: corners

/-- Chain of facts produced by the 3x3 loop: every pushed face is a real
face, never on the same axis as the face before it, and never equal to the
face two positions back. -/
inductive Chain3 : String → String → List Mv → Prop where
  | nil (last slast : String) : Chain3 last slast []
  | cons (last slast : String) (mv : Mv) (rest : List Mv)
      (hm : mv.1 ∈ moves3)
      (hax : last ≠ "" → sameAxisB last mv.1 = false)
      (hsl : last ≠ "" → slast ≠ "" → mv.1 ≠ slast)
      (ht : Chain3 mv.1 last rest) : Chain3 last slast (mv :: rest)

/-- Chain of facts produced by the 2x2 loop: faces in R, U, F, no repeat, no
two-back repeat, and from the third move on the face forced by the previous
two. -/
inductive Chain2 : String → String → List Mv → Prop where
  | nil (last slast : String) : Chain2 last slast []
  | cons (last slast : String) (mv : Mv) (rest : List Mv)
      (hm : mv.1 ∈ moves2)
      (hlast : last ≠ "" → mv.1 ≠ last)
      (hsl : last ≠ "" → slast ≠ "" → mv.1 ≠ slast)
      (hdet : last ≠ "" → slast ≠ "" → slast ≠ last → mv.1 = rufThird slast last)
      (ht : Chain2 mv.1 last rest) : Chain2 last slast (mv :: rest)

/-- Chain of facts produced by the pyraminx base loop: faces in R, L, U, B,
no immediate repeat, and the anti-cancellation filter for moves coming from
the standard single-move path. -/
inductive ChainP : String → String → List PMove → Prop where
  | nil (last slast : String) : ChainP last slast []
  | cons (last slast : String) (mv : PMove) (rest : List PMove)
      (hm : mv.face ∈ pyrMoves)
      (hne : mv.face ≠ last)
      (hstd : mv.fromPattern = false → last ≠ "" → slast ≠ "" →
        antiRot last = some slast → mv.face ≠ slast)
      (ht : ChainP mv.face last rest) : ChainP last slast (mv :: rest)

/-! ### Concrete streams used for witnesses and counterexamples -/

/-- The identity stream. -/
def gId : RStream := fun n => n

/-- The all-zero stream: every pin draw of the clock generator picks u. -/
def gZero : RStream := fun _ => 0

/-- A stream driving the pyraminx generator into the cancellation shape
R U L R L U R L (hard patterns at iterations 0, 3 and 6). -/
def gC4 : RStream := fun n =>
  List.getD [0, 2, 0, 0, 1, 99, 0, 0, 0, 0, 99, 0, 0, 0, 0] n 0

/-! ## Lemmas about the random primitives -/

theorem getRandomElement_mem {α : Type _} {l : List α} {g : RStream}
    {k : Nat} {a : α} {k2 : Nat}
    (h : getRandomElement l g k = some (a, k2)) : a ∈ l ∧ k2 = k + 1 := by
  unfold getRandomElement at h
  cases hg : l.get? (g k % l.length) with
  | none => rw [hg] at h; exact absurd h (by simp)
  | some b =>
    rw [hg] at h
    simp only [Option.some.injEq, Prod.mk.injEq] at h
    exact ⟨h.1 ▸ List.get?_mem hg, h.2.symm⟩

theorem getRandomElement_some {α : Type _} (l : List α) (g : RStream) (k : Nat)
    (h : l ≠ []) : ∃ a, getRandomElement l g k = some (a, k + 1) ∧ a ∈ l := by
  have hlen : 0 < l.length := List.length_pos.mpr h
  have hlt : g k % l.length < l.length := Nat.mod_lt _ hlen
  refine ⟨l.get ⟨g k % l.length, hlt⟩, ?_, List.get_mem ..⟩
  unfold getRandomElement
  rw [List.get?_eq_get hlt]

/-! ## Clock lemmas -/

theorem clockHourTokens_length (g : RStream) :
    ∀ (l : List String) (k : Nat), (clockHourTokens g l k).1.length = l.length := by
  intro l
  induction l with
  | nil => intro k; simp [clockHourTokens]
  | cons p rest ih => intro k; simp [clockHourTokens, ih]

theorem clock_ups_ne_nil :
    ∀ a ∈ (["u", "d"] : List String), ∀ b ∈ (["u", "d"] : List String),
    ∀ c ∈ (["u", "d"] : List String), ∀ e ∈ (["u", "d"] : List String),
    ([a, b, c, e].filter (fun p => p == "d")).length < 2 →
    (["UR", "DR", "DL", "UL"].filter (fun pos => pinAt a b c e pos == "u")) ≠ [] := by
  decide

theorem clock_shape_aux (t0 : String) (l1 l2 : List String)
    (hl1 : l1.length = 5) (hl2 : l2.length = 5) :
    (t0 :: l1 ++ "y2" :: l2).length = 12 ∧
      (t0 :: l1 ++ "y2" :: l2).get? 6 = some "y2" := by
  rcases l1 with _ | ⟨a, _ | ⟨b, _ | ⟨c, _ | ⟨d, _ | ⟨e, _ | ⟨f, rest⟩⟩⟩⟩⟩⟩ <;>
    simp_all

theorem generateClockTokens_spec (g : RStream) :
    ∃ toks, generateClockTokens g = some toks ∧ toks.length = 12 ∧
      toks.get? 6 = some "y2" := by
  obtain ⟨pUR, h1, hm1⟩ := getRandomElement_some ["u", "d"] g 0 (by decide)
  obtain ⟨pDR, h2, hm2⟩ := getRandomElement_some ["u", "d"] g (0 + 1) (by decide)
  obtain ⟨pDL, h3, hm3⟩ := getRandomElement_some ["u", "d"] g (0 + 1 + 1) (by decide)
  obtain ⟨pUL, h4, hm4⟩ := getRandomElement_some ["u", "d"] g (0 + 1 + 1 + 1)
    (by decide)
  unfold generateClockTokens
  rw [h1]; dsimp only
  rw [h2]; dsimp only
  rw [h3]; dsimp only
  rw [h4]; dsimp only
  by_cases hdc : ([pUR, pDR, pDL, pUL].filter (fun p => p == "d")).length < 2
  · obtain ⟨pos, hpos, hposm⟩ := getRandomElement_some
      (["UR", "DR", "DL", "UL"].filter
        (fun pos => pinAt pUR pDR pDL pUL pos == "u")) g (0 + 1 + 1 + 1 + 1)
      (clock_ups_ne_nil pUR hm1 pDR hm2 pDL hm3 pUL hm4 hdc)
    simp only [hdc, if_true, hpos]
    refine ⟨_, rfl, ?_⟩
    exact clock_shape_aux _ _ _ (clockHourTokens_length ..) (clockHourTokens_length ..)
  · simp only [hdc, if_false]
    refine ⟨_, rfl, ?_⟩
    exact clock_shape_aux _ _ _ (clockHourTokens_length ..) (clockHourTokens_length ..)

/-- Claim C1, code-bug evidence: the pin-flip step of generateClockScramble
(lines 407-413) flips exactly one pin, so on a stream whose four pin draws
all pick u the emitted pin token is (d,u,u,u), holding a single d and not
the floor of two the claim (and the comment at line 405 of the source)
states; generateScramble for Clock returns exactly the clock output. -/
theorem C1_clock_pin_floor_bug :
    (generateClockTokens gZero).map (fun l => l.headD "") = some "(d,u,u,u)" ∧
    countD "(d,u,u,u)" = 1 ∧
    (∀ g : RStream, generateScrambleTokens "Clock" g = generateClockTokens g) :=
  ⟨by decide, by decide, fun _ => rfl⟩

/-- Claim C2 is false as stated: on the identity stream the 6th token of the
Clock scramble (counting from 1, so 0-based index 5) is ALL+1, not y2. -/
theorem C2_sixth_token_counterexample :
    (generateClockTokens gId).map (fun l => l.get? 5) = some (some "ALL+1") ∧
    ("ALL+1" : String) ≠ "y2" :=
  ⟨by decide, by decide⟩

/-- Claim C2 amended: for every random stream the Clock scramble has exactly
12 tokens and its 7th token (counting from 1, so 0-based index 6) is the
literal y2 (the pin token is followed by five hour tokens, so y2 is seventh,
not sixth). -/
theorem C2_clock_shape (g : RStream) :
    ∃ toks, generateScrambleTokens "Clock" g = some toks ∧
      toks.length = 12 ∧ toks.get? 6 = some "y2" := by
  have h : generateScrambleTokens "Clock" g = generateClockTokens g := rfl
  rw [h]
  exact generateClockTokens_spec g

/-! ## 3x3 lemmas -/

theorem moves3_ne_empty : ∀ f ∈ moves3, f ≠ "" := by decide

theorem avail3_facts : ∀ last ∈ valid3, ∀ slast ∈ valid3,
    avail3 last slast ≠ [] ∧
    ∀ f ∈ avail3 last slast, f ∈ moves3 ∧
      (last ≠ "" → sameAxisB last f = false) ∧
      (last ≠ "" → slast ≠ "" → f ≠ slast) := by decide

theorem bias3_spec (g : RStream) (i k : Nat) (last : String)
    (avail : List String) :
    ∃ r k2, bias3 g i k last avail = some (r, k2) ∧
      ∀ mv : Mv, r = some mv → mv.1 ∈ avail := by
  unfold bias3
  by_cases h1 : 0 < i ∧ i % 5 = 0 ∧ last ≠ ""
  · rw [if_pos h1]
    by_cases h2 : (adjacentPairs.filter (fun pair => pair.contains last)).length > 0
    · rw [if_pos h2]
      obtain ⟨pair, hpair, _⟩ := getRandomElement_some _ g k
        (List.ne_nil_of_length_pos h2)
      rw [hpair]; dsimp only
      cases hfind : pair.find? (fun move => move ≠ last) with
      | none => exact ⟨none, _, rfl, by simp⟩
      | some pm =>
        dsimp only
        by_cases h3 : avail.contains pm
        · rw [if_pos h3]
          by_cases h4 : chance g (k + 1) 60
          · rw [if_pos h4]
            refine ⟨some (pm, (biasMod g (k + 1 + 1)).1), (biasMod g (k + 1 + 1)).2,
              rfl, ?_⟩
            intro mv hmv
            cases hmv
            simpa using h3
          · rw [if_neg h4]; exact ⟨none, _, rfl, by simp⟩
        · rw [if_neg h3]; exact ⟨none, _, rfl, by simp⟩
    · rw [if_neg h2]; exact ⟨none, _, rfl, by simp⟩
  · rw [if_neg h1]; exact ⟨none, _, rfl, by simp⟩

theorem step3_spec (g : RStream) (i k : Nat) (last slast : String)
    (hne : avail3 last slast ≠ []) :
    ∃ mv k2, step3 g i k last slast = some (mv, k2) ∧
      mv.1 ∈ avail3 last slast := by
  unfold step3
  obtain ⟨r, k1, hbias, hr⟩ := bias3_spec g i k last (avail3 last slast)
  rw [hbias]
  cases r with
  | some mv => exact ⟨mv, k1, rfl, hr mv rfl⟩
  | none =>
    dsimp only
    obtain ⟨face, hface, hfm⟩ := getRandomElement_some _ g k1 hne
    rw [hface]
    exact ⟨(face, (mod3Way g (k1 + 1)).1), (mod3Way g (k1 + 1)).2, rfl, hfm⟩

theorem gen3Go_spec (g : RStream) :
    ∀ n i k last slast, last ∈ valid3 → slast ∈ valid3 →
      ∃ l, gen3Go g n i k last slast = some l ∧ l.length = n ∧
        Chain3 last slast l := by
  intro n
  induction n with
  | zero => exact fun i k last slast _ _ => ⟨[], rfl, rfl, Chain3.nil ..⟩
  | succ n ih =>
    intro i k last slast hl hs
    have hfacts := avail3_facts last hl slast hs
    obtain ⟨mv, k2, hstep, hmem⟩ := step3_spec g i k last slast hfacts.1
    have hmv := hfacts.2 mv.1 hmem
    have hlv : mv.1 ∈ valid3 := List.mem_cons_of_mem _ hmv.1
    obtain ⟨rest, hrest, hlen, hchain⟩ := ih (i + 1) k2 mv.1 last hlv hl
    refine ⟨mv :: rest, ?_, by simp [hlen], ?_⟩
    · simp only [gen3Go]
      rw [hstep]; dsimp only
      rw [hrest]
    · exact Chain3.cons _ _ _ _ hmv.1 hmv.2.1 hmv.2.2 hchain

theorem chain3_diffAxis : ∀ (l : List Mv) (last slast : String),
    Chain3 last slast l → diffAxisChainB (l.map Prod.fst) = true := by
  intro l
  induction l with
  | nil => intro _ _ _; rfl
  | cons mv rest ih =>
    intro last slast h
    cases h with
    | cons _ _ _ _ hm hax hsl ht =>
      have hrec := ih _ _ ht
      cases rest with
      | nil => rfl
      | cons mv2 rest2 =>
        cases ht with
        | cons _ _ _ _ hm2 hax2 hsl2 ht2 =>
          have h1 : sameAxisB mv.1 mv2.1 = false := hax2 (moves3_ne_empty mv.1 hm)
          simpa [diffAxisChainB, h1] using hrec

theorem chain3_noTwoBack : ∀ (l : List Mv) (last slast : String),
    Chain3 last slast l → noTwoBackB (l.map Prod.fst) = true := by
  intro l
  induction l with
  | nil => intro _ _ _; rfl
  | cons mv rest ih =>
    intro last slast h
    cases h with
    | cons _ _ _ _ hm hax hsl ht =>
      have hrec := ih _ _ ht
      cases rest with
      | nil => rfl
      | cons mv2 rest2 =>
        cases rest2 with
        | nil => rfl
        | cons mv3 rest3 =>
          cases ht with
          | cons _ _ _ _ hm2 hax2 hsl2 ht2 =>
            cases ht2 with
            | cons _ _ _ _ hm3 hax3 hsl3 ht3 =>
              have h3 : mv3.1 ≠ mv.1 :=
                hsl3 (moves3_ne_empty _ hm2) (moves3_ne_empty _ hm)
              simpa [noTwoBackB, h3] using hrec

/-- Claim C5: the 3x3 generator (also dispatched for 3x3, 3x3 BLD and
3x3 OH) always returns exactly 20 moves; no two consecutive faces lie on the
same axis, and every face differs from the face two positions earlier, on
every path including the every-5th-move adjacency bias. -/
theorem C5_gen3x3_shape (g : RStream) :
    ∃ mvs, generate3x3Moves g = some mvs ∧ mvs.length = 20 ∧
      diffAxisChainB (mvs.map Prod.fst) = true ∧
      noTwoBackB (mvs.map Prod.fst) = true ∧
      generateScrambleTokens "3x3" g = some (renderMvs mvs) ∧
      generateScrambleTokens "3x3 BLD" g = some (renderMvs mvs) ∧
      generateScrambleTokens "3x3 OH" g = some (renderMvs mvs) := by
  obtain ⟨l, hl, hlen, hchain⟩ := gen3Go_spec g 20 0 0 "" "" (by decide) (by decide)
  have hd1 : generateScrambleTokens "3x3" g = (generate3x3Moves g).map renderMvs := rfl
  have hd2 : generateScrambleTokens "3x3 BLD" g =
    (generate3x3Moves g).map renderMvs := rfl
  have hd3 : generateScrambleTokens "3x3 OH" g =
    (generate3x3Moves g).map renderMvs := rfl
  have hm : generate3x3Moves g = some l := hl
  refine ⟨l, hl, hlen, chain3_diffAxis _ _ _ hchain, chain3_noTwoBack _ _ _ hchain,
    ?_, ?_, ?_⟩
  · rw [hd1, hm]; rfl
  · rw [hd2, hm]; rfl
  · rw [hd3, hm]; rfl


/-! ## 2x2 lemmas -/

theorem moves2_ne_empty : ∀ f ∈ moves2, f ≠ "" := by decide

theorem avail2_facts : ∀ last ∈ valid2, ∀ slast ∈ valid2,
    avail2 last slast ≠ [] ∧
    ∀ f ∈ avail2 last slast, f ∈ moves2 ∧
      (last ≠ "" → f ≠ last) ∧
      (last ≠ "" → slast ≠ "" → f ≠ slast) ∧
      (last ≠ "" → slast ≠ "" → slast ≠ last → f = rufThird slast last) := by
  decide

theorem bias2_spec (g : RStream) (i k : Nat) (last : String)
    (avail : List String) :
    ∃ r k2, bias2 g i k last avail = some (r, k2) ∧
      ∀ mv : Mv, r = some mv → mv.1 ∈ avail := by
  unfold bias2
  by_cases h1 : 0 < i ∧ i % 3 = 0 ∧ last ≠ ""
  · rw [if_pos h1]
    by_cases h2 : (hardPatterns2.filter (fun pattern => pattern.contains last)).length > 0
    · rw [if_pos h2]
      obtain ⟨pat, hpat, _⟩ := getRandomElement_some _ g k
        (List.ne_nil_of_length_pos h2)
      rw [hpat]; dsimp only
      cases hfind : pat.find? (fun move => move ≠ last) with
      | none => exact ⟨none, _, rfl, by simp⟩
      | some pm =>
        dsimp only
        by_cases h3 : avail.contains pm
        · rw [if_pos h3]
          by_cases h4 : chance g (k + 1) 60
          · rw [if_pos h4]
            refine ⟨some (pm, (biasMod g (k + 1 + 1)).1), (biasMod g (k + 1 + 1)).2,
              rfl, ?_⟩
            intro mv hmv
            cases hmv
            simpa using h3
          · rw [if_neg h4]; exact ⟨none, _, rfl, by simp⟩
        · rw [if_neg h3]; exact ⟨none, _, rfl, by simp⟩
    · rw [if_neg h2]; exact ⟨none, _, rfl, by simp⟩
  · rw [if_neg h1]; exact ⟨none, _, rfl, by simp⟩

theorem step2_spec (g : RStream) (i k : Nat) (last slast : String)
    (hne : avail2 last slast ≠ []) :
    ∃ mv k2, step2 g i k last slast = some (mv, k2) ∧
      mv.1 ∈ avail2 last slast := by
  unfold step2
  obtain ⟨r, k1, hbias, hr⟩ := bias2_spec g i k last (avail2 last slast)
  rw [hbias]
  cases r with
  | some mv => exact ⟨mv, k1, rfl, hr mv rfl⟩
  | none =>
    dsimp only
    obtain ⟨face, hface, hfm⟩ := getRandomElement_some _ g k1 hne
    rw [hface]
    exact ⟨(face, (mod2Way g (k1 + 1)).1), (mod2Way g (k1 + 1)).2, rfl, hfm⟩

theorem gen2Go_spec (g : RStream) :
    ∀ n i k last slast, last ∈ valid2 → slast ∈ valid2 →
      ∃ l, gen2Go g n i k last slast = some l ∧ l.length = n ∧
        Chain2 last slast l := by
  intro n
  induction n with
  | zero => exact fun i k last slast _ _ => ⟨[], rfl, rfl, Chain2.nil ..⟩
  | succ n ih =>
    intro i k last slast hl hs
    have hfacts := avail2_facts last hl slast hs
    obtain ⟨mv, k2, hstep, hmem⟩ := step2_spec g i k last slast hfacts.1
    have hmv := hfacts.2 mv.1 hmem
    have hlv : mv.1 ∈ valid2 := List.mem_cons_of_mem _ hmv.1
    obtain ⟨rest, hrest, hlen, hchain⟩ := ih (i + 1) k2 mv.1 last hlv hl
    refine ⟨mv :: rest, ?_, by simp [hlen], ?_⟩
    · simp only [gen2Go]
      rw [hstep]; dsimp only
      rw [hrest]
    · exact Chain2.cons _ _ _ _ hmv.1 hmv.2.1 hmv.2.2.1 hmv.2.2.2 hchain

theorem chain2_noRepeat : ∀ (l : List Mv) (last slast : String),
    Chain2 last slast l → noRepeatB (l.map Prod.fst) = true := by
  intro l
  induction l with
  | nil => intro _ _ _; rfl
  | cons mv rest ih =>
    intro last slast h
    cases h with
    | cons _ _ _ _ hm hlast hsl hdet ht =>
      have hrec := ih _ _ ht
      cases rest with
      | nil => rfl
      | cons mv2 rest2 =>
        cases ht with
        | cons _ _ _ _ hm2 hlast2 hsl2 hdet2 ht2 =>
          have h1 : mv2.1 ≠ mv.1 := hlast2 (moves2_ne_empty mv.1 hm)
          simpa [noRepeatB, Ne.symm h1] using hrec

theorem chain2_noTwoBack : ∀ (l : List Mv) (last slast : String),
    Chain2 last slast l → noTwoBackB (l.map Prod.fst) = true := by
  intro l
  induction l with
  | nil => intro _ _ _; rfl
  | cons mv rest ih =>
    intro last slast h
    cases h with
    | cons _ _ _ _ hm hlast hsl hdet ht =>
      have hrec := ih _ _ ht
      cases rest with
      | nil => rfl
      | cons mv2 rest2 =>
        cases rest2 with
        | nil => rfl
        | cons mv3 rest3 =>
          cases ht with
          | cons _ _ _ _ hm2 hlast2 hsl2 hdet2 ht2 =>
            cases ht2 with
            | cons _ _ _ _ hm3 hlast3 hsl3 hdet3 ht3 =>
              have h3 : mv3.1 ≠ mv.1 :=
                hsl3 (moves2_ne_empty _ hm2) (moves2_ne_empty _ hm)
              simpa [noTwoBackB, h3] using hrec

theorem chain2_third : ∀ (l : List Mv) (last slast : String),
    Chain2 last slast l → thirdDeterminedB (l.map Prod.fst) = true := by
  intro l
  induction l with
  | nil => intro _ _ _; rfl
  | cons mv rest ih =>
    intro last slast h
    cases h with
    | cons _ _ _ _ hm hlast hsl hdet ht =>
      have hrec := ih _ _ ht
      cases rest with
      | nil => rfl
      | cons mv2 rest2 =>
        cases rest2 with
        | nil => rfl
        | cons mv3 rest3 =>
          cases ht with
          | cons _ _ _ _ hm2 hlast2 hsl2 hdet2 ht2 =>
            cases ht2 with
            | cons _ _ _ _ hm3 hlast3 hsl3 hdet3 ht3 =>
              have hne1 : mv.1 ≠ "" := moves2_ne_empty _ hm
              have hne2 : mv2.1 ≠ "" := moves2_ne_empty _ hm2
              have h21 : mv2.1 ≠ mv.1 := hlast2 hne1
              have h3 : mv3.1 = rufThird mv.1 mv2.1 := hdet3 hne2 hne1 (Ne.symm h21)
              simpa [thirdDeterminedB, h3] using hrec

/-- Claim C9: every 2x2 scramble has between 9 and 11 moves; each face
differs from the previous face and from the face two back, and since the
alphabet is only R, U, F, from the third move on the face is the one forced
by the previous two (rufThird), so beyond the first two faces only the
length and the modifiers carry randomness. -/
theorem C9_gen2x2_determined (g : RStream) :
    ∃ mvs, generate2x2Moves g = some mvs ∧
      9 ≤ mvs.length ∧ mvs.length ≤ 11 ∧
      noRepeatB (mvs.map Prod.fst) = true ∧
      noTwoBackB (mvs.map Prod.fst) = true ∧
      thirdDeterminedB (mvs.map Prod.fst) = true ∧
      generateScrambleTokens "2x2" g = some (renderMvs mvs) := by
  have hdef : generate2x2Moves g = gen2Go g (9 + g 0 % 3) 0 1 "" "" := rfl
  obtain ⟨l, hl, hlen, hchain⟩ :=
    gen2Go_spec g (9 + g 0 % 3) 0 1 "" "" (by decide) (by decide)
  have hx : g 0 % 3 < 3 := Nat.mod_lt _ (by norm_num)
  have hm : generate2x2Moves g = some l := by rw [hdef, hl]
  have hd : generateScrambleTokens "2x2" g = (generate2x2Moves g).map renderMvs := rfl
  refine ⟨l, hm, by omega, by omega, chain2_noRepeat _ _ _ hchain,
    chain2_noTwoBack _ _ _ hchain, chain2_third _ _ _ hchain, ?_⟩
  rw [hd, hm]; rfl


/-! ## Pyraminx lemmas -/

theorem pyrMoves_ne_empty : ∀ f ∈ pyrMoves, f ≠ "" := by decide

theorem availPyr_facts : ∀ last ∈ validPyr, ∀ slast ∈ validPyr,
    availPyr last slast ≠ [] ∧
    ∀ f ∈ availPyr last slast, f ∈ pyrMoves ∧ f ≠ last ∧
      (last ≠ "" → slast ≠ "" → antiRot last = some slast → f ≠ slast) := by
  decide

theorem hardPatternsPyr_facts :
    ∀ p ∈ hardPatternsPyr, p.1 ∈ pyrMoves ∧ p.2 ∈ pyrMoves ∧ p.2 ≠ p.1 := by
  decide

theorem pyrStd_spec (g : RStream) (mc fuel i kS : Nat) (last slast : String)
    (hi : i < mc) (hl : last ∈ validPyr) (hs : slast ∈ validPyr)
    (ih : ∀ i2 k2 (last2 slast2 : String), mc - i2 < fuel → last2 ∈ validPyr →
      slast2 ∈ validPyr →
      ∃ l kf, pyrGo g mc fuel i2 k2 last2 slast2 = some (l, kf) ∧
        l.length = mc - i2 ∧ ChainP last2 slast2 l)
    (hfuel : mc - i < fuel + 1) :
    ∃ l0 kf0,
      (match getRandomElement (availPyr last slast) g kS with
       | none => none
       | some (move, k2) =>
         match pyrGo g mc fuel (i + 1) (k2 + 1) move last with
         | none => none
         | some (rest, kf) =>
           some (⟨move, if chance g k2 60 then apo else "", false⟩ :: rest, kf)) =
        some (l0, kf0) ∧ l0.length = mc - i ∧ ChainP last slast l0 := by
  have hfacts := availPyr_facts last hl slast hs
  obtain ⟨move, hmove, hmm⟩ := getRandomElement_some _ g kS hfacts.1
  have hmf := hfacts.2 move hmm
  obtain ⟨rest, kf, hrest, hlen, hchain⟩ := ih (i + 1) (kS + 1 + 1) move last
    (by omega) (List.mem_cons_of_mem _ hmf.1) hl
  rw [hmove]; dsimp only
  rw [hrest]
  refine ⟨_, kf, rfl, ?_, ?_⟩
  · simp only [List.length_cons, hlen]; omega
  · exact ChainP.cons _ _ _ _ hmf.1 hmf.2.1 (fun _ => hmf.2.2) hchain

theorem pyrGo_spec (g : RStream) (mc : Nat) :
    ∀ fuel i k last slast, mc - i < fuel → last ∈ validPyr → slast ∈ validPyr →
      ∃ l kf, pyrGo g mc fuel i k last slast = some (l, kf) ∧
        l.length = mc - i ∧ ChainP last slast l := by
  intro fuel
  induction fuel with
  | zero => intro i k last slast h _ _; exact absurd h (by omega)
  | succ fuel ih =>
    intro i k last slast hfuel hl hs
    by_cases hi : i < mc
    · simp only [pyrGo]
      rw [if_pos hi]
      by_cases hpat : i % 3 = 0 ∧ i + 1 < mc
      · rw [if_pos hpat]
        obtain ⟨pat, hdraw, hpmem⟩ := getRandomElement_some hardPatternsPyr g k
          (by decide)
        have hpf := hardPatternsPyr_facts pat hpmem
        rw [hdraw]; dsimp only
        by_cases hp1 : pat.1 ≠ last
        · rw [if_pos hp1]
          obtain ⟨m1, hm1, _⟩ := getRandomElement_some pyrModifiers g (k + 1)
            (by decide)
          rw [hm1]; dsimp only
          obtain ⟨m2, hm2, _⟩ := getRandomElement_some pyrModifiers g (k + 1 + 1)
            (by decide)
          rw [hm2]; dsimp only
          obtain ⟨rest, kf, hrest, hlen, hchain⟩ := ih (i + 2) (k + 1 + 1 + 1)
            pat.2 pat.1 (by omega) (List.mem_cons_of_mem _ hpf.2.1)
            (List.mem_cons_of_mem _ hpf.1)
          rw [hrest]
          refine ⟨_, kf, rfl, ?_, ?_⟩
          · simp only [List.length_cons, hlen]; omega
          · refine ChainP.cons _ _ _ _ hpf.1 hp1 (fun h => by simp at h) ?_
            exact ChainP.cons _ _ _ _ hpf.2.1 hpf.2.2 (fun h => by simp at h) hchain
        · rw [if_neg hp1]
          exact pyrStd_spec g mc fuel i (k + 1) last slast hi hl hs ih hfuel
      · rw [if_neg hpat]
        exact pyrStd_spec g mc fuel i k last slast hi hl hs ih hfuel
    · simp only [pyrGo]
      rw [if_neg hi]
      exact ⟨[], k, rfl, by simp only [List.length_nil]; omega, ChainP.nil ..⟩

theorem pyrTips_some (g : RStream) :
    ∀ n k used, ∃ r, pyrTips g n k used = some r := by
  intro n
  induction n with
  | zero => exact fun k used => ⟨[], rfl⟩
  | succ n ih =>
    intro k used
    by_cases he : (tipMoves.filter (fun tip => !used.contains tip)).length = 0
    · refine ⟨[], ?_⟩
      simp only [pyrTips]
      rw [if_pos he]
    · obtain ⟨tip, htip, _⟩ := getRandomElement_some _ g k
        (List.ne_nil_of_length_pos (Nat.pos_of_ne_zero he))
      obtain ⟨m, hm, _⟩ := getRandomElement_some pyrModifiers g (k + 1) (by decide)
      obtain ⟨rest, hrest⟩ := ih (k + 1 + 1) (tip :: used)
      refine ⟨(tip, m) :: rest, ?_⟩
      simp only [pyrTips]
      rw [if_neg he, htip]; dsimp only
      rw [hm]; dsimp only
      rw [hrest]

theorem generatePyraminxParts_spec (g : RStream) :
    ∃ base tips, generatePyraminxParts g = some (base, tips) ∧
      8 ≤ base.length ∧ base.length ≤ 10 ∧ ChainP "" "" base := by
  have hri : getRandomInt g 0 8 10 = (8 + g 0 % 3, 1) := rfl
  have hx : g 0 % 3 < 3 := Nat.mod_lt _ (by norm_num)
  obtain ⟨base, kf, hbase, hlen, hchain⟩ := pyrGo_spec g (8 + g 0 % 3)
    (8 + g 0 % 3 + 1) 0 1 "" "" (by omega) (by decide) (by decide)
  obtain ⟨tips, htips⟩ := pyrTips_some g (getRandomInt g kf 0 2).1
    (getRandomInt g kf 0 2).2 []
  refine ⟨base, tips, ?_, by omega, by omega, hchain⟩
  unfold generatePyraminxParts
  rw [hri]; dsimp only
  rw [hbase]; dsimp only
  rw [htips]

theorem chainP_noRepeat : ∀ (l : List PMove) (last slast : String),
    ChainP last slast l → noRepeatB (l.map PMove.face) = true := by
  intro l
  induction l with
  | nil => intro _ _ _; rfl
  | cons mv rest ih =>
    intro last slast h
    cases h with
    | cons _ _ _ _ hm hne hstd ht =>
      have hrec := ih _ _ ht
      cases rest with
      | nil => rfl
      | cons mv2 rest2 =>
        cases ht with
        | cons _ _ _ _ hm2 hne2 hstd2 ht2 =>
          simpa [noRepeatB, Ne.symm hne2] using hrec

theorem chainP_antiStd : ∀ (l : List PMove) (last slast : String),
    ChainP last slast l → antiCancelStdB l = true := by
  intro l
  induction l with
  | nil => intro _ _ _; rfl
  | cons mv rest ih =>
    intro last slast h
    cases h with
    | cons _ _ _ _ hm hne hstd ht =>
      have hrec := ih _ _ ht
      cases rest with
      | nil => rfl
      | cons mv2 rest2 =>
        cases rest2 with
        | nil => rfl
        | cons mv3 rest3 =>
          cases ht with
          | cons _ _ _ _ hm2 hne2 hstd2 ht2 =>
            cases ht2 with
            | cons _ _ _ _ hm3 hne3 hstd3 ht3 =>
              simp only [antiCancelStdB, hrec, Bool.and_true]
              by_cases hfp : mv3.fromPattern = true
              · simp [hfp]
              · have hfp2 : mv3.fromPattern = false := by
                  revert hfp; cases mv3.fromPattern <;> simp
                by_cases har : antiRot mv2.face = some mv.face
                · have h3 := hstd3 hfp2 (pyrMoves_ne_empty _ hm2)
                    (pyrMoves_ne_empty _ hm) har
                  simp [hfp2, har, h3]
                · simp [hfp2, har]


/-! ## Skewb lemmas -/

theorem skAdjOptions_sub : ∀ last ∈ validSk, ∀ slast ∈ validSk,
    ∀ f ∈ ((adjacentCorners last).getD []).filter (fun corner => corner ≠ slast),
      f ∈ corners := by
  decide

theorem skAvail_facts : ∀ last ∈ validSk,
    corners.filter (fun corner => corner ≠ last) ≠ [] ∧
    ∀ f ∈ corners.filter (fun corner => corner ≠ last), f ∈ corners := by
  decide

theorem stepSkAdj_spec (g : RStream) (k : Nat) (last slast : String)
    (hl : last ∈ validSk) (hs : slast ∈ validSk) :
    ∃ r k2, stepSkAdj g k last slast = some (r, k2) ∧
      ∀ mv : Mv, r = some mv → mv.1 ∈ corners := by
  unfold stepSkAdj
  by_cases h1 : last ≠ "" ∧ (adjacentCorners last).isSome
  · rw [if_pos h1]
    by_cases h2 : chance g k 70
    · rw [if_pos h2]
      by_cases h3 : (((adjacentCorners last).getD []).filter
          (fun corner => corner ≠ slast)).length > 0
      · rw [if_pos h3]
        obtain ⟨corner, hc, hcm⟩ := getRandomElement_some _ g (k + 1)
          (List.ne_nil_of_length_pos h3)
        rw [hc]
        refine ⟨some (corner, if chance g (k + 1 + 1) 55 then apo else ""),
          k + 1 + 1 + 1, rfl, ?_⟩
        intro mv hmv
        cases hmv
        exact skAdjOptions_sub last hl slast hs corner hcm
      · rw [if_neg h3]; exact ⟨none, _, rfl, by simp⟩
    · rw [if_neg h2]; exact ⟨none, _, rfl, by simp⟩
  · rw [if_neg h1]; exact ⟨none, _, rfl, by simp⟩

theorem stepSk_spec (g : RStream) (k : Nat) (last slast : String)
    (hl : last ∈ validSk) (hs : slast ∈ validSk) :
    ∃ mv k2, stepSk g k last slast = some (mv, k2) ∧ mv.1 ∈ corners := by
  unfold stepSk
  obtain ⟨r, k1, hadj, hr⟩ := stepSkAdj_spec g k last slast hl hs
  rw [hadj]
  cases r with
  | some mv => exact ⟨mv, k1, rfl, hr mv rfl⟩
  | none =>
    dsimp only
    have hfacts := skAvail_facts last hl
    obtain ⟨corner, hc, hcm⟩ := getRandomElement_some _ g k1 hfacts.1
    rw [hc]
    exact ⟨(corner, if chance g (k1 + 1) 55 then apo else ""), k1 + 1 + 1, rfl,
      hfacts.2 corner hcm⟩

theorem genSkGo_spec (g : RStream) :
    ∀ n k last slast, last ∈ validSk → slast ∈ validSk →
      ∃ l, genSkGo g n k last slast = some l ∧ l.length = n := by
  intro n
  induction n with
  | zero => exact fun k last slast _ _ => ⟨[], rfl, rfl⟩
  | succ n ih =>
    intro k last slast hl hs
    obtain ⟨mv, k2, hstep, hmem⟩ := stepSk_spec g k last slast hl hs
    obtain ⟨rest, hrest, hlen⟩ := ih k2 mv.1 last (List.mem_cons_of_mem _ hmem) hl
    refine ⟨mv :: rest, ?_, by simp [hlen]⟩
    simp only [genSkGo]
    rw [hstep]; dsimp only
    rw [hrest]

/-! ## The pyraminx claim -/

/-- Claim C4 amended: in the base portion (8 to 10 moves) of every pyraminx
scramble no face equals the immediately preceding face, and the axis-opposite
anti-cancellation holds for every move produced by the standard single-move
path; the hard-pattern injection (source lines 255-274) checks only that the
pattern head differs from the last move, so it can recreate the cancellation
shape the claim forbids (see the counterexample). -/
theorem C4_pyraminx_base_invariants (g : RStream) :
    ∃ base tips, generatePyraminxParts g = some (base, tips) ∧
      8 ≤ base.length ∧ base.length ≤ 10 ∧
      noRepeatB (base.map PMove.face) = true ∧
      antiCancelStdB base = true := by
  obtain ⟨base, tips, hp, h8, h10, hchain⟩ := generatePyraminxParts_spec g
  exact ⟨base, tips, hp, h8, h10, chainP_noRepeat _ _ _ hchain,
    chainP_antiStd _ _ _ hchain⟩

/-- Claim C4 is false as stated: on the stream gC4 the pyraminx base portion
is R U L R L U R L; at positions 2, 3, 4 the faces are L, R, L, where L is
the axis-opposite of R, so the letter of token 4 equals the letter of token 2
although token 2 is the axis-opposite of token 3 — the configuration the
claim rules out.  The offending pair R L is pushed whole by the hard-pattern
path, which only compares the pattern head R with the last move L. -/
theorem C4_pyraminx_cancel_counterexample :
    pyrBaseFaces gC4 = ["R", "U", "L", "R", "L", "U", "R", "L"] ∧
    hasCancelViolation (pyrBaseFaces gC4) = true ∧
    antiRot "R" = some "L" :=
  ⟨by decide, by decide, by decide⟩


/-! ## Custom generator lemmas -/

theorem pickFace3_mem (g : RStream) (faces : List String) (last lax : String) :
    ∀ fuel k face k2, pickFace3 g faces last lax fuel k = some (face, k2) →
      face ∈ faces := by
  intro fuel
  induction fuel with
  | zero => intro k face k2 h; exact absurd h (by simp [pickFace3])
  | succ fuel ih =>
    intro k face k2 h
    simp only [pickFace3] at h
    cases hg : getRandomElement faces g k with
    | none => rw [hg] at h; exact absurd h (by simp)
    | some fk =>
      obtain ⟨f1, k1⟩ := fk
      rw [hg] at h; dsimp only at h
      by_cases hr : reject3 f1 last lax
      · rw [if_pos hr] at h; exact ih k1 face k2 h
      · rw [if_neg hr] at h
        simp only [Option.some.injEq, Prod.mk.injEq] at h
        exact h.1 ▸ (getRandomElement_mem hg).1

theorem gen3CGo_spec (g : RStream) (fuel : Nat) (d : String) :
    ∀ n k last lax l, gen3CGo g fuel d n k last lax = some l →
      l.length = n ∧ ∀ mv ∈ l, mv.1 ∈ custom3Faces d := by
  intro n
  induction n with
  | zero =>
    intro k last lax l h
    simp only [gen3CGo, Option.some.injEq] at h
    subst h
    exact ⟨rfl, by simp⟩
  | succ n ih =>
    intro k last lax l h
    simp only [gen3CGo] at h
    cases hp : pickFace3 g (custom3Faces d) last lax fuel k with
    | none => rw [hp] at h; exact absurd h (by simp)
    | some fk =>
      obtain ⟨face, k1⟩ := fk
      rw [hp] at h; dsimp only at h
      cases hm : getRandomElement (custom3Modifiers d) g k1 with
      | none => rw [hm] at h; exact absurd h (by simp)
      | some mk =>
        obtain ⟨m, k2⟩ := mk
        rw [hm] at h; dsimp only at h
        cases hr : gen3CGo g fuel d n k2 face
            (if axisFaces.contains face then face else lax) with
        | none => rw [hr] at h; exact absurd h (by simp)
        | some rest =>
          rw [hr] at h
          simp only [Option.some.injEq] at h
          subst h
          obtain ⟨hlen, hmem⟩ := ih _ _ _ _ hr
          refine ⟨by simp [hlen], ?_⟩
          intro mv hmv
          rcases List.mem_cons.mp hmv with h1 | h1
          · subst h1; exact pickFace3_mem g _ _ _ fuel k face k1 hp
          · exact hmem mv h1

theorem gen2CGo_len (g : RStream) (fuel : Nat) (d : String) :
    ∀ n k last l, gen2CGo g fuel d n k last = some l → l.length = n := by
  intro n
  induction n with
  | zero =>
    intro k last l h
    simp only [gen2CGo, Option.some.injEq] at h
    subst h
    rfl
  | succ n ih =>
    intro k last l h
    simp only [gen2CGo] at h
    cases hp : pickFace2 g last fuel k with
    | none => rw [hp] at h; exact absurd h (by simp)
    | some fk =>
      obtain ⟨face, k1⟩ := fk
      rw [hp] at h; dsimp only at h
      cases hm : getRandomElement (custom2Modifiers d) g k1 with
      | none => rw [hm] at h; exact absurd h (by simp)
      | some mk =>
        obtain ⟨m, k2⟩ := mk
        rw [hm] at h; dsimp only at h
        cases hr : gen2CGo g fuel d n k2 face with
        | none => rw [hr] at h; exact absurd h (by simp)
        | some rest =>
          rw [hr] at h
          simp only [Option.some.injEq] at h
          subst h
          simp [ih _ _ _ hr]

theorem generateCustom2x2_len (g : RStream) (fuel : Nat) (m : Int) (d : String)
    (mvs : List Mv) (h : generateCustom2x2Moves g fuel m d = some mvs) :
    mvs.length = (custom2Count m d).toNat :=
  gen2CGo_len g fuel d _ _ _ _ h

theorem c7_base : ∀ last ∈ ("" :: moves3), ∀ lax ∈ ("" :: axisFaces),
    (moves3.any fun f => !reject3 f last lax) = true := by decide

theorem c7_hard : ∀ last ∈ ("" :: custom3Faces "hard"),
    ∀ lax ∈ ("" :: axisFaces),
    ((custom3Faces "hard").any fun f => !reject3 f last lax) = true := by decide


/-- Claim C7: for every difficulty string and every reachable pair of
trackers (last face in the alphabet or empty, last axis a base face or
empty), at least one face of the alphabet passes the do-while acceptance test
of lines 499-505 — so every draw of the rejection loop has an accepting
outcome and the loop terminates with probability one — and whenever the loop
returns, generateCustom3x3Scramble returns exactly moveCount tokens
(moveCount.toNat: a non-positive bound runs the for loop zero times). -/
theorem C7_custom3x3_nonempty_and_count :
    (∀ (difficulty last lastAxis : String),
      last ∈ ("" :: custom3Faces difficulty) → lastAxis ∈ ("" :: axisFaces) →
      ((custom3Faces difficulty).any fun f => !reject3 f last lastAxis) = true) ∧
    (∀ (g : RStream) (fuel : Nat) (moves : Int) (difficulty : String)
      (toks : List Mv),
      generateCustom3x3Moves g fuel moves difficulty = some toks →
      toks.length = moves.toNat) := by
  constructor
  · intro d last lax hl hx
    by_cases hd : d = "hard"
    · subst hd; exact c7_hard last hl lax hx
    · have hfaces : custom3Faces d = moves3 := by simp [custom3Faces, hd]
      rw [hfaces] at hl ⊢
      exact c7_base last hl lax hx
  · intro g fuel m d toks h
    exact (gen3CGo_spec g fuel d _ _ _ _ _ h).1

/-- Witness for claim C7 at concrete inputs: the medium alphabet accepts a
face after an R move on the R axis, and a 3-move medium run on the identity
stream returns exactly 3 tokens. -/
theorem C7_custom3x3_witness :
    ((custom3Faces "medium").any fun f => !reject3 f "R" "R") = true ∧
    (generateCustom3x3Moves gId 40 3 "medium").map List.length = some 3 := by
  constructor
  · exact C7_custom3x3_nonempty_and_count.1 "medium" "R" "R" (by decide) (by decide)
  · obtain ⟨toks, htoks⟩ := Option.isSome_iff_exists.mp
      (by decide : (generateCustom3x3Moves gId 40 3 "medium").isSome = true)
    have hlen := C7_custom3x3_nonempty_and_count.2 gId 40 3 "medium" toks htoks
    rw [htoks]
    simp [hlen]

/-- Claim C3 is false as stated: requesting 5 moves at easy difficulty caps
the count at min(5, 8) = 5, not 8; on the identity stream the call returns
5 tokens. -/
theorem C3_easy_clamp_counterexample :
    (generateCustomTokens "2x2" 5 "easy" 30 gId).map List.length = some 5 ∧
    (5 : Nat) ≠ 8 :=
  ⟨by decide, by decide⟩

/-- Claim C3 amended: generateCustomScramble with type 2x2, 5 moves and easy
difficulty returns (whenever its rejection loops return) exactly min(5, 8)
= 5 tokens: the easy rule caps the requested count at 8 and never raises it. -/
theorem C3_easy_clamp (g : RStream) (fuel : Nat) (toks : List String)
    (h : generateCustomTokens "2x2" 5 "easy" fuel g = some toks) :
    toks.length = 5 := by
  have hd : generateCustomTokens "2x2" 5 "easy" fuel g =
    (generateCustom2x2Moves g fuel 5 "easy").map renderMvs := rfl
  rw [hd] at h
  cases hm : generateCustom2x2Moves g fuel 5 "easy" with
  | none => rw [hm] at h; exact absurd h (by simp)
  | some mvs =>
    rw [hm] at h
    simp only [Option.map_some', Option.some.injEq] at h
    subst h
    have hlen := generateCustom2x2_len g fuel 5 "easy" mvs hm
    simp [renderMvs, hlen]
    decide

/-- Witness for the amended claim C3 at a concrete stream and fuel. -/
theorem C3_easy_clamp_witness :
    (generateCustomTokens "2x2" 5 "easy" 30 gId).map List.length = some 5 := by
  obtain ⟨toks, htoks⟩ := Option.isSome_iff_exists.mp
    (by decide : (generateCustomTokens "2x2" 5 "easy" 30 gId).isSome = true)
  have := C3_easy_clamp gId 30 toks htoks
  rw [htoks]
  simp [this]

/-- Claim C10: a moveCount of 0 is falsy, so the custom dispatcher coalesces
it to the default: with type 3x3 the call returns 20 tokens, with type 2x2 it
behaves exactly as if 10 had been requested; a negative moveCount is passed
through unchanged, the custom 3x3 loop runs zero times, and the result is the
empty scramble. -/
theorem C10_custom_defaults :
    (∀ (g : RStream) (fuel : Nat) (d : String) (toks : List String),
      generateCustomTokens "3x3" 0 d fuel g = some toks → toks.length = 20) ∧
    (∀ (g : RStream) (fuel : Nat) (d : String),
      generateCustomTokens "2x2" 0 d fuel g =
        (generateCustom2x2Moves g fuel 10 d).map renderMvs) ∧
    (∀ (g : RStream) (fuel : Nat) (d : String) (m : Int), m < 0 →
      generateCustomTokens "3x3" m d fuel g = some []) := by
  refine ⟨?_, ?_, ?_⟩
  · intro g fuel d toks h
    have hd : generateCustomTokens "3x3" 0 d fuel g =
      (generateCustom3x3Moves g fuel 20 d).map renderMvs := rfl
    rw [hd] at h
    cases hm : generateCustom3x3Moves g fuel 20 d with
    | none => rw [hm] at h; exact absurd h (by simp)
    | some mvs =>
      rw [hm] at h
      simp only [Option.map_some', Option.some.injEq] at h
      subst h
      have hlen := (gen3CGo_spec g fuel d _ _ _ _ _ hm).1
      simp [renderMvs, hlen]
  · intro g fuel d; rfl
  · intro g fuel d m hm
    have hd : generateCustomTokens "3x3" m d fuel g =
      (generateCustom3x3Moves g fuel (movesOr m 20) d).map renderMvs := rfl
    rw [hd]
    have h0 : movesOr m 20 = m := by unfold movesOr; rw [if_neg (by omega)]
    rw [h0]
    have h1 : m.toNat = 0 := Int.toNat_of_nonpos (le_of_lt hm)
    unfold generateCustom3x3Moves
    rw [h1]
    rfl

/-- Witness for claim C10 at concrete inputs. -/
theorem C10_custom_defaults_witness :
    (generateCustomTokens "3x3" 0 "medium" 60 gId).map List.length = some 20 ∧
    generateCustomTokens "3x3" (-3) "medium" 60 gId = some [] ∧
    generateCustomTokens "2x2" 0 "hard" 60 gId =
      (generateCustom2x2Moves gId 60 10 "hard").map renderMvs := by
  refine ⟨?_, C10_custom_defaults.2.2 gId 60 "medium" (-3) (by omega),
    C10_custom_defaults.2.1 gId 60 "hard"⟩
  obtain ⟨toks, htoks⟩ := Option.isSome_iff_exists.mp
    (by decide : (generateCustomTokens "3x3" 0 "medium" 60 gId).isSome = true)
  have := C10_custom_defaults.1 gId 60 "medium" toks htoks
  rw [htoks]
  simp [this]

/-- Claim C8 is false at moveCount 0: the dispatcher coalesces a falsy move
count to 20 before calling the custom 3x3 generator, so the unknown-type call
does not equal the custom 3x3 generator called with the same parameters (the
latter returns the empty scramble). -/
theorem C8_zero_moves_counterexample :
    generateCustomTokens "unknown-type" 0 "medium" 60 gId ≠
      (generateCustom3x3Moves gId 60 0 "medium").map renderMvs := by decide

/-- Claim C8 amended: for every string outside the seven canonical labels,
generateScramble equals the 3x3 dispatch output (a 20-token scramble), and
generateCustomScramble equals the custom 3x3 generator with the same
parameters whenever the move count is non-zero (a zero move count is
coalesced to 20, on the unknown path exactly as on the 3x3 path); in
particular the 12-move hard call yields 12 tokens over the hard alphabet,
and no error is raised. -/
theorem C8_unknown_type_fallback (s : String) (hs : s ∉ canonicalTypes)
    (g : RStream) (fuel : Nat) (m : Int) (d : String) :
    generateScrambleTokens s g = generateScrambleTokens "3x3" g ∧
    (m ≠ 0 → generateCustomTokens s m d fuel g =
      (generateCustom3x3Moves g fuel m d).map renderMvs) ∧
    (generateCustomTokens s 0 d fuel g =
      (generateCustom3x3Moves g fuel 20 d).map renderMvs) ∧
    (∃ toks, generateScrambleTokens s g = some toks ∧ toks.length = 20) ∧
    (∀ mvs, generateCustom3x3Moves g fuel 12 "hard" = some mvs →
      mvs.length = 12 ∧ ∀ mv ∈ mvs, mv.1 ∈ custom3Faces "hard") := by
  simp only [canonicalTypes, List.mem_cons, List.mem_singleton, not_or] at hs
  obtain ⟨h2, h3, hbld, hoh, hpyr, hsk, hcl, -⟩ := hs
  have hstd : generateScrambleTokens s g = (generate3x3Moves g).map renderMvs := by
    unfold generateScrambleTokens
    rw [if_neg h3, if_neg h2, if_neg hpyr, if_neg hsk, if_neg hcl,
      if_neg hbld, if_neg hoh]
  have hcust : ∀ mv : Int, generateCustomTokens s mv d fuel g =
      (generateCustom3x3Moves g fuel (movesOr mv 20) d).map renderMvs := by
    intro mv
    unfold generateCustomTokens
    rw [if_neg h2, if_neg h3, if_neg hbld, if_neg hoh, if_neg hpyr,
      if_neg hsk, if_neg hcl]
  refine ⟨by rw [hstd]; rfl, ?_, ?_, ?_, ?_⟩
  · intro hm
    rw [hcust m]
    have : movesOr m 20 = m := by unfold movesOr; rw [if_neg hm]
    rw [this]
  · rw [hcust 0]
    rfl
  · obtain ⟨l, hl, hlen, _⟩ := gen3Go_spec g 20 0 0 "" "" (by decide) (by decide)
    have hm3 : generate3x3Moves g = some l := hl
    refine ⟨renderMvs l, ?_, by simp [renderMvs, hlen]⟩
    rw [hstd, hm3]
    rfl
  · intro mvs hmvs
    obtain ⟨hlen, hmem⟩ := gen3CGo_spec g fuel "hard" _ _ _ _ _ hmvs
    exact ⟨by simpa using hlen, hmem⟩

/-- Witness for the amended claim C8 at a concrete unknown type, stream,
fuel, move count and difficulty. -/
theorem C8_unknown_type_witness :
    generateScrambleTokens "unknown-type" gId = generateScrambleTokens "3x3" gId ∧
    generateCustomTokens "unknown-type" 12 "hard" 60 gId =
      (generateCustom3x3Moves gId 60 12 "hard").map renderMvs := by
  have h := C8_unknown_type_fallback "unknown-type" (by decide) gId 60 12 "hard"
  exact ⟨h.1, h.2.1 (by decide)⟩

/-- Claim C6: with getRandomElement modelled as none on an empty array, every
standard generator returns some on every stream — the candidate relaxation
fallbacks, the bias and hard-pattern paths, the pyraminx tip selection and
the clock up-pin flip never face an empty array — and the custom generators
pass getRandomElement only the constant non-empty face and modifier
alphabets. -/
theorem C6_getRandomElement_safety :
    (∀ g : RStream, (generate3x3Moves g).isSome = true) ∧
    (∀ g : RStream, (generate2x2Moves g).isSome = true) ∧
    (∀ g : RStream, (generatePyraminxParts g).isSome = true) ∧
    (∀ g : RStream, (generateSkewbMoves g).isSome = true) ∧
    (∀ g : RStream, (generateClockTokens g).isSome = true) ∧
    (∀ d : String, custom3Faces d ≠ [] ∧ custom3Modifiers d ≠ [] ∧
      custom2Modifiers d ≠ []) ∧
    moves2 ≠ [] := by
  refine ⟨?_, ?_, ?_, ?_, ?_, ?_, by decide⟩
  · intro g
    obtain ⟨l, hl, _, _⟩ := gen3Go_spec g 20 0 0 "" "" (by decide) (by decide)
    unfold generate3x3Moves
    rw [hl]
    rfl
  · intro g
    obtain ⟨l, hl, _, _⟩ := gen2Go_spec g (9 + g 0 % 3) 0 1 "" ""
      (by decide) (by decide)
    have hdef : generate2x2Moves g = gen2Go g (9 + g 0 % 3) 0 1 "" "" := rfl
    rw [hdef, hl]
    rfl
  · intro g
    obtain ⟨b, t, hp, _, _, _⟩ := generatePyraminxParts_spec g
    rw [hp]
    rfl
  · intro g
    obtain ⟨l, hl, _⟩ := genSkGo_spec g 9 0 "" "" (by decide) (by decide)
    unfold generateSkewbMoves
    rw [hl]
    rfl
  · intro g
    obtain ⟨l, hl, _, _⟩ := generateClockTokens_spec g
    rw [hl]
    rfl
  · intro d
    refine ⟨?_, ?_, ?_⟩
    · unfold custom3Faces; split <;> decide
    · unfold custom3Modifiers; split <;> first | decide | split <;> decide
    · unfold custom2Modifiers; split <;> decide

end Scramble
